import Mathlib

/-!
Verification of the entity-annotation pipeline of
`app/bot/nlu/entity_extractors/crf_entity_extractor.py`.

The Python code is shallowly embedded: spacy docs are modelled as lists of
`(token_text, pos_tag)` pairs, Python `dict`s (which preserve insertion
order and have distinct keys) as association lists with first-match lookup
and in-place update, Python exceptions as `Except`/skip behaviour, and
Python string slicing/`split(" ")`/`lower()`/`startswith` as executable
functions on the character list of a `String` (ASCII case model).
-/

namespace TalkWeave

/-- Python slice `s[a:b]` on the character list of a string: negative
indices count from the end, and both bounds are clamped into `[0, len]`. -/
def pySliceList (l : List Char) (a b : Int) : List Char :=
  let n : Int := l.length
  let a' : Int := if a < 0 then max (n + a) 0 else min a n
  let b' : Int := if b < 0 then max (n + b) 0 else min b n
  (l.take b'.toNat).drop a'.toNat

/-- Python slice `s[a:b]` as a string. -/
def pySlice (s : String) (a b : Int) : String :=
  String.mk (pySliceList s.data a b)

/-- Python slice `s[a:]` (upper bound omitted, i.e. the length). -/
def pySliceFrom (s : String) (a : Int) : String :=
  pySlice s a (s.data.length : Int)

/-- Python `s.split(" ")` for the single-space separator: splits on every
space and keeps empty pieces; on `""` it returns `[""]`. -/
def pySplitList : List Char → List Char → List (List Char)
  | [], cur => [cur.reverse]
  | c :: cs, cur =>
    if c = ' ' then cur.reverse :: pySplitList cs []
    else pySplitList cs (c :: cur)

/-- Python `s.split(" ")`. -/
def pySplitSpace (s : String) : List String :=
  (pySplitList s.data []).map String.mk

/-- Python `s.startswith(p)`. -/
def pyStartsWith (s p : String) : Bool :=
  p.data.isPrefixOf s.data

/-- ASCII model of Python `str.lower` on one character. -/
def pyLowerChar (c : Char) : Char :=
  if 'A' ≤ c ∧ c ≤ 'Z' then Char.ofNat (c.toNat + 32) else c

/-- ASCII model of Python `str.lower`. -/
def pyLower (s : String) : String :=
  String.mk (s.data.map pyLowerChar)

/-- Python truthiness rendering `"%s" % bool`. -/
def pyBoolStr (b : Bool) : String :=
  if b then "True" else "False"

/-- ASCII model of Python `str.isupper`: at least one cased character and
no cased character is lowercase. -/
def pyIsUpper (s : String) : Bool :=
  s.data.any (fun c => c.isAlpha) && s.data.all (fun c => !c.isLower)

/-- ASCII model of Python `str.isdigit`: non-empty and all digits. -/
def pyIsDigit (s : String) : Bool :=
  (!s.data.isEmpty) && s.data.all Char.isDigit

/-- Helper for `pyIsTitle`: walks the characters carrying whether the
previous character was cased and whether a cased character was found. -/
def pyIsTitleAux : List Char → Bool → Bool → Bool
  | [], _, found => found
  | c :: cs, prevCased, found =>
    if c.isUpper then
      if prevCased then false else pyIsTitleAux cs true true
    else if c.isLower then
      if prevCased then pyIsTitleAux cs true true else false
    else
      pyIsTitleAux cs false found

/-- ASCII model of Python `str.istitle`: uppercase characters follow only
uncased characters, lowercase characters follow only cased ones, and at
least one cased character occurs. -/
def pyIsTitle (s : String) : Bool :=
  pyIsTitleAux s.data false false

/-- One labeled token `[token, postag, label]` of the CRF training data. -/
abbrev LTok := String × String × String

/-- `pos_tag_and_label`: POS-tag a sentence (the spacy doc already carries
`(text, tag_)` pairs, as produced by `pos_tagger`) and initialize every
BIO label to `"O"`. -/
def pos_tag_and_label (doc : List (String × String)) : List LTok :=
  doc.map (fun tp => (tp.1, tp.2, "O"))

/-- `sentence_tokenize` as `json2crf` actually invokes it: with a Python
`str` argument instead of a spacy doc.  Iterating a `str` yields
single-character `str`s, which have no `.text` attribute, so the list
comprehension raises `AttributeError` on any non-empty string; on the
empty string the comprehension is empty and `" ".join([])` returns `""`. -/
def sentence_tokenize_str (s : String) : Except Unit String :=
  if s = "" then .ok "" else .error ()

/-- A character-offset entity annotation from the JSON training data
(`entity.get("name") / .get("begin") / .get("end")`).  `begin`/`end` are
Python ints (`end` is a Lean keyword, hence the trailing underscores). -/
structure Entity where
  name : String
  begin_ : Int
  end_ : Int
  deriving DecidableEq

/-- One JSON training example: raw text, spacy doc as `(text, tag)` pairs,
and its entity annotations. -/
structure Example_ where
  text : String
  doc : List (String × String)
  entities : List Entity
  deriving DecidableEq

/-- Overwrite the label (third slot) of a labeled token, as the in-place
Python assignment `tagged_example[idx][2] = bio` does. -/
def setLabel (lt : LTok) (bio : String) : LTok :=
  (lt.1, lt.2.1, bio)

/-- The BIO-writing loop of `json2crf`: for `i = 1 .. selCount` write
`"B-<name>"` (at `i = 1`) or `"I-<name>"` at index `(invCount + i) - 1`.
An out-of-range index raises `IndexError`, which the surrounding bare
`except` catches: the writes made so far persist and the rest are
abandoned.  `rem` counts the remaining iterations. -/
def writeBioAux (name : String) (invCount : Nat) :
    List LTok → Nat → Nat → List LTok
  | tagged, _, 0 => tagged
  | tagged, i, rem + 1 =>
    let bio := if i = 1 then "B-" ++ name else "I-" ++ name
    let idx := invCount + i - 1
    if idx < tagged.length then
      writeBioAux name invCount
        (tagged.set idx (setLabel (tagged.getD idx ("", "", "")) bio))
        (i + 1) rem
    else tagged

/-- The BIO-writing loop of `json2crf`, started at `i = 1`. -/
def writeBio (name : String) (invCount selCount : Nat) (tagged : List LTok) :
    List LTok :=
  writeBioAux name invCount tagged 1 selCount

/-- The body of the per-entity `try` block of `json2crf`: slice the text
before the span (`text[0 : begin-1]`) and the span itself
(`text[begin : end]`), run each through `sentence_tokenize` (a `str`
argument, see `sentence_tokenize_str`), count the space-split words, and
write the BIO labels.  Any exception is caught by the bare `except` and
the annotation is skipped. -/
def applyEntity (text : String) (tagged : List LTok) (ent : Entity) : List LTok :=
  match sentence_tokenize_str (pySlice text 0 (ent.begin_ - 1)) with
  | .error _ => tagged
  | .ok inv =>
    let invCount := (pySplitSpace inv).length
    match sentence_tokenize_str (pySlice text ent.begin_ ent.end_) with
    | .error _ => tagged
    | .ok sel =>
      let selCount := (pySplitSpace sel).length
      writeBio ent.name invCount selCount tagged

/-- `json2crf` on a single training example: initialize all labels to
`"O"`, then apply each annotation in order. -/
def json2crf_example (ex : Example_) : List LTok :=
  ex.entities.foldl (applyEntity ex.text) (pos_tag_and_label ex.doc)

/-- `json2crf`: convert json annotated data to CRFSuite training data. -/
def json2crf (training_data : List Example_) : List (List LTok) :=
  training_data.map json2crf_example

/-- Lookup `d[k]` in a Python dict modelled as an insertion-ordered
association list (first match wins; a real dict has distinct keys). -/
def dget (d : List (String × String)) (k : String) : Option String :=
  match d.find? (fun e => e.1 == k) with
  | some e => some e.2
  | none => none

/-- Python dict assignment `d[k] = v`: update the entry in place if the
key is present (keeping its position), otherwise append it. -/
def dset : List (String × String) → String → String → List (String × String)
  | [], k, v => [(k, v)]
  | e :: es, k, v => if e.1 == k then (k, v) :: es else e :: dset es k v

/-- Python `set.add` on a set modelled as a duplicate-free list. -/
def setAdd (seen : List String) (x : String) : List String :=
  if seen.contains x then seen else seen ++ [x]

/-- The value an entry of the entity map gets in `replace_synonyms`: the
canonical form when the lower-cased value is a key of the synonym dict,
the value itself otherwise (`str(...)` on a string is the identity). -/
def resolveVal (synonyms : List (String × String)) (v : String) : String :=
  match dget synonyms (pyLower v) with
  | some c => c
  | none => v

/-- `replace_synonyms`: iterate over the keys of the entity dict and
reassign each value; since a dict has distinct keys and only values are
reassigned, this is the entrywise value transformation. -/
def replace_synonyms (synonyms entities : List (String × String)) :
    List (String × String) :=
  entities.map (fun e => (e.1, resolveVal synonyms e.2))

/-- One step of the `crf2json` loop on state `(labeled, labels)` and a
pair `(s, tp)`.  The unreachable `none` branch mirrors the fact that a
`"I"` label is only appended when its name is in `labels`, which the
`"B"` branch keeps in sync with the keys of `labeled`. -/
def crf2jsonStep (st : List (String × String) × List String)
    (p : String × String) : List (String × String) × List String :=
  let s := p.1
  let tp := p.2
  if tp ≠ "O" then
    let label := pySliceFrom tp 2
    if pyStartsWith tp "B" then
      (dset st.1 label s, setAdd st.2 label)
    else if pyStartsWith tp "I" && st.2.contains label then
      match dget st.1 label with
      | some old => (dset st.1 label (old ++ " " ++ s), st.2)
      | none => st
    else st
  else st

/-- `crf2json`: extract label-value pairs from the NER prediction output,
a single ordered pass over `(token, label)` pairs. -/
def crf2json (tagged_sentence : List (String × String)) :
    List (String × String) :=
  (tagged_sentence.foldl crf2jsonStep ([], [])).1

/-- `extract_features` for token `i` of a sentence of `(word, postag)`
pairs.  Call sites always pass an in-range `i`; `getD` is used for the
(unreached) out-of-range case. -/
def extract_features (sent : List (String × String)) (i : Nat) : List String :=
  let word := (sent.getD i ("", "")).1
  let postag := (sent.getD i ("", "")).2
  let features : List String :=
    ["bias",
     "word.lower=" ++ pyLower word,
     "word[-3:]=" ++ pySliceFrom word (-3),
     "word[-2:]=" ++ pySliceFrom word (-2),
     "word.isupper=" ++ pyBoolStr (pyIsUpper word),
     "word.istitle=" ++ pyBoolStr (pyIsTitle word),
     "word.isdigit=" ++ pyBoolStr (pyIsDigit word),
     "postag=" ++ postag,
     "postag[:2]=" ++ pySlice postag 0 2]
  let features :=
    if i > 0 then
      let word1 := (sent.getD (i - 1) ("", "")).1
      let postag1 := (sent.getD (i - 1) ("", "")).2
      features ++
        ["-1:word.lower=" ++ pyLower word1,
         "-1:word.istitle=" ++ pyBoolStr (pyIsTitle word1),
         "-1:word.isupper=" ++ pyBoolStr (pyIsUpper word1),
         "-1:postag=" ++ postag1,
         "-1:postag[:2]=" ++ pySlice postag1 0 2]
    else features ++ ["BOS"]
  let features :=
    if i < sent.length - 1 then
      let word1 := (sent.getD (i + 1) ("", "")).1
      let postag1 := (sent.getD (i + 1) ("", "")).2
      features ++
        ["+1:word.lower=" ++ pyLower word1,
         "+1:word.istitle=" ++ pyBoolStr (pyIsTitle word1),
         "+1:word.isupper=" ++ pyBoolStr (pyIsUpper word1),
         "+1:postag=" ++ postag1,
         "+1:postag[:2]=" ++ pySlice postag1 0 2]
    else features ++ ["EOS"]
  features

/-- `sent_to_features`: features for every token of a sentence. -/
def sent_to_features (sent : List (String × String)) : List (List String) :=
  (List.range sent.length).map (extract_features sent)

/-- The tail of `predict` after the external tagger returned
`predicted_labels`: `crf2json(zip(words, predicted_labels))` followed by
`replace_synonyms`.  There is no length check: Python `zip` (like
`List.zip`) truncates to the shorter of the two sequences. -/
def predictEntities (synonyms : List (String × String))
    (words predicted_labels : List String) : List (String × String) :=
  replace_synonyms synonyms (crf2json (words.zip predicted_labels))

/-- The condition under which the per-entity `try` block of `json2crf`
runs to completion and writes a label: both character slices must be
empty strings (any non-empty string makes `sentence_tokenize` raise
`AttributeError` on a `str` argument) and the single write index `1`
must be in range of the `n` tokens (otherwise `IndexError`). -/
def spanResolves (text : String) (ent : Entity) (n : Nat) : Bool :=
  (pySlice text 0 (ent.begin_ - 1) == "") &&
  ((pySlice text ent.begin_ ent.end_ == "") && decide (1 < n))

lemma writeBio_one (name : String) (tagged : List LTok) :
    writeBio name 1 1 tagged =
      if 1 < tagged.length
      then tagged.set 1 (setLabel (tagged.getD 1 ("", "", "")) ("B-" ++ name))
      else tagged := by
  unfold writeBio writeBioAux
  by_cases h : 1 < tagged.length
  · rw [if_pos h, if_pos h]
    rfl
  · rw [if_neg h, if_neg h]

lemma applyEntity_eq (text : String) (tagged : List LTok) (ent : Entity) :
    applyEntity text tagged ent =
      if spanResolves text ent tagged.length
      then tagged.set 1 (setLabel (tagged.getD 1 ("", "", "")) ("B-" ++ ent.name))
      else tagged := by
  unfold applyEntity spanResolves
  by_cases h1 : pySlice text 0 (ent.begin_ - 1) = ""
  · have e1 : sentence_tokenize_str (pySlice text 0 (ent.begin_ - 1)) =
        Except.ok "" := by rw [sentence_tokenize_str, if_pos h1]
    rw [e1]
    by_cases h2 : pySlice text ent.begin_ ent.end_ = ""
    · have e2 : sentence_tokenize_str (pySlice text ent.begin_ ent.end_) =
          Except.ok "" := by rw [sentence_tokenize_str, if_pos h2]
      rw [e2]
      show writeBio ent.name 1 1 tagged = _
      rw [writeBio_one]
      simp [h1, h2]
    · have e2 : sentence_tokenize_str (pySlice text ent.begin_ ent.end_) =
          Except.error () := by rw [sentence_tokenize_str, if_neg h2]
      rw [e2]
      simp [h2]
  · have e1 : sentence_tokenize_str (pySlice text 0 (ent.begin_ - 1)) =
        Except.error () := by rw [sentence_tokenize_str, if_neg h1]
    rw [e1]
    simp [h1]

lemma length_applyEntity (text : String) (tagged : List LTok) (ent : Entity) :
    (applyEntity text tagged ent).length = tagged.length := by
  rw [applyEntity_eq]
  split
  · exact List.length_set ..
  · rfl

lemma length_foldl_applyEntity (text : String) (ents : List Entity)
    (tagged : List LTok) :
    (ents.foldl (applyEntity text) tagged).length = tagged.length := by
  induction ents generalizing tagged with
  | nil => rfl
  | cons e es ih => rw [List.foldl_cons, ih, length_applyEntity]

lemma get?_zero_applyEntity (text : String) (tagged : List LTok)
    (ent : Entity) :
    (applyEntity text tagged ent).get? 0 = tagged.get? 0 := by
  rw [applyEntity_eq]
  split
  · cases tagged <;> rfl
  · rfl

lemma get?_zero_foldl_applyEntity (text : String) (ents : List Entity)
    (tagged : List LTok) :
    (ents.foldl (applyEntity text) tagged).get? 0 = tagged.get? 0 := by
  induction ents generalizing tagged with
  | nil => rfl
  | cons e es ih => rw [List.foldl_cons, ih, get?_zero_applyEntity]

lemma proj_get?_set_one (l : List LTok) (bio : String) (j : Nat) :
    ((l.set 1 (setLabel (l.getD 1 ("", "", "")) bio)).get? j).map
        (fun lt => (lt.1, lt.2.1)) =
      (l.get? j).map (fun lt => (lt.1, lt.2.1)) := by
  rcases l with _ | ⟨a, _ | ⟨b, t⟩⟩ <;> rcases j with _ | _ | j <;> rfl

lemma proj_get?_applyEntity (text : String) (tagged : List LTok)
    (ent : Entity) (j : Nat) :
    ((applyEntity text tagged ent).get? j).map (fun lt => (lt.1, lt.2.1)) =
      (tagged.get? j).map (fun lt => (lt.1, lt.2.1)) := by
  rw [applyEntity_eq]
  split
  · exact proj_get?_set_one ..
  · rfl

lemma proj_get?_foldl_applyEntity (text : String) (ents : List Entity)
    (tagged : List LTok) (j : Nat) :
    ((ents.foldl (applyEntity text) tagged).get? j).map
        (fun lt => (lt.1, lt.2.1)) =
      (tagged.get? j).map (fun lt => (lt.1, lt.2.1)) := by
  induction ents generalizing tagged with
  | nil => rfl
  | cons e es ih => rw [List.foldl_cons, ih, proj_get?_applyEntity]

lemma mem_set_one (l : List LTok) (x lt : LTok) (h : lt ∈ l.set 1 x) :
    lt ∈ l ∨ lt = x := by
  rcases l with _ | ⟨a, _ | ⟨b, t⟩⟩ <;> simp_all [List.set]
  tauto

lemma label_mem_applyEntity (text : String) (tagged : List LTok) (ent : Entity)
    (lt : LTok) (h : lt ∈ applyEntity text tagged ent) :
    lt ∈ tagged ∨ lt.2.2 = "B-" ++ ent.name := by
  rw [applyEntity_eq] at h
  split at h
  · rcases mem_set_one _ _ _ h with h' | h'
    · exact Or.inl h'
    · right
      rw [h']
      rfl
  · exact Or.inl h

lemma label_mem_foldl_applyEntity (text : String) (ents : List Entity)
    (tagged : List LTok) (lt : LTok)
    (h : lt ∈ ents.foldl (applyEntity text) tagged) :
    lt ∈ tagged ∨ ∃ ent ∈ ents, lt.2.2 = "B-" ++ ent.name := by
  induction ents generalizing tagged with
  | nil => exact Or.inl h
  | cons e es ih =>
    rcases ih (applyEntity text tagged e) h with h' | ⟨ent, hent, hl⟩
    · rcases label_mem_applyEntity _ _ _ _ h' with h'' | h''
      · exact Or.inl h''
      · exact Or.inr ⟨e, List.mem_cons_self e es, h''⟩
    · exact Or.inr ⟨ent, List.mem_cons_of_mem e hent, hl⟩

/-- The Label Decoder step exactly as the spec words it (§4.4): dispatch
on the `"B-"` / `"I-"` label shapes; `"O"` (and anything else) is a
no-op.  `name = label[2:]`; a `"B-"` overwrites `accumulator[name]` and
records `name` as seen; an `"I-"` appends `" " + token` when `name` was
seen and contributes nothing otherwise.  The `none` branch of the
accumulator lookup is unreachable (seen names always have an entry). -/
def specDecoderStep (st : List (String × String) × List String)
    (p : String × String) : List (String × String) × List String :=
  let token := p.1
  let label := p.2
  if pyStartsWith label "B-" then
    let name := pySliceFrom label 2
    (dset st.1 name token, setAdd st.2 name)
  else if pyStartsWith label "I-" then
    let name := pySliceFrom label 2
    if st.2.contains name then
      match dget st.1 name with
      | some old => (dset st.1 name (old ++ " " ++ token), st.2)
      | none => st
    else st
  else st

/-- The Label Decoder as the spec words it: a single ordered pass of
`specDecoderStep` over the `(token, label)` pairs. -/
def specDecoder (pairs : List (String × String)) : List (String × String) :=
  (pairs.foldl specDecoderStep ([], [])).1

lemma startsWith_B_dash (s : String) (h : pyStartsWith s "B-" = true) :
    ∃ rest, s.data = 'B' :: '-' :: rest := by
  obtain ⟨l⟩ := s
  rcases l with _ | ⟨x, _ | ⟨y, t⟩⟩ <;>
    simp [pyStartsWith, List.isPrefixOf] at h
  obtain ⟨h1, h2⟩ := h
  subst h1
  subst h2
  exact ⟨t, rfl⟩

lemma startsWith_I_dash (s : String) (h : pyStartsWith s "I-" = true) :
    ∃ rest, s.data = 'I' :: '-' :: rest := by
  obtain ⟨l⟩ := s
  rcases l with _ | ⟨x, _ | ⟨y, t⟩⟩ <;>
    simp [pyStartsWith, List.isPrefixOf] at h
  obtain ⟨h1, h2⟩ := h
  subst h1
  subst h2
  exact ⟨t, rfl⟩

lemma crf2jsonStep_eq_spec (st : List (String × String) × List String)
    (p : String × String)
    (h : p.2 = "O" ∨ pyStartsWith p.2 "B-" = true ∨
      pyStartsWith p.2 "I-" = true) :
    crf2jsonStep st p = specDecoderStep st p := by
  obtain ⟨s, tp⟩ := p
  rcases h with h | h | h
  · subst h
    rfl
  · obtain ⟨rest, hd⟩ := startsWith_B_dash _ h
    obtain ⟨l⟩ := tp
    simp only at hd h
    subst hd
    have hO : (⟨'B' :: '-' :: rest⟩ : String) ≠ "O" := by
      simp [String.ext_iff]
    have hB : pyStartsWith ⟨'B' :: '-' :: rest⟩ "B" = true := by
      simp [pyStartsWith, List.isPrefixOf]
    simp only [crf2jsonStep, specDecoderStep]
    rw [if_pos hO, if_pos hB, if_pos h]
  · obtain ⟨rest, hd⟩ := startsWith_I_dash _ h
    obtain ⟨l⟩ := tp
    simp only at hd h
    subst hd
    have hO : (⟨'I' :: '-' :: rest⟩ : String) ≠ "O" := by
      simp [String.ext_iff]
    have hB : ¬ (pyStartsWith ⟨'I' :: '-' :: rest⟩ "B" = true) := by
      simp [pyStartsWith, List.isPrefixOf]
    have hBd : ¬ (pyStartsWith ⟨'I' :: '-' :: rest⟩ "B-" = true) := by
      simp [pyStartsWith, List.isPrefixOf]
    have hI : pyStartsWith ⟨'I' :: '-' :: rest⟩ "I" = true := by
      simp [pyStartsWith, List.isPrefixOf]
    simp only [crf2jsonStep, specDecoderStep]
    rw [if_pos hO, if_neg hB, if_neg hBd, if_pos h, hI, Bool.true_and]

lemma foldl_crf2jsonStep_eq_spec (pairs : List (String × String))
    (h : ∀ p ∈ pairs, p.2 = "O" ∨ pyStartsWith p.2 "B-" = true ∨
      pyStartsWith p.2 "I-" = true) (st : List (String × String) × List String) :
    pairs.foldl crf2jsonStep st = pairs.foldl specDecoderStep st := by
  induction pairs generalizing st with
  | nil => rfl
  | cons p ps ih =>
    rw [List.foldl_cons, List.foldl_cons,
      crf2jsonStep_eq_spec st p (h p (List.mem_cons_self p ps))]
    exact ih (fun q hq => h q (List.mem_cons_of_mem p hq)) _

/-- The label regex `^(B|I)-\S+$` of the spec: `B` or `I`, a dash, and at
least one further character, none of them whitespace. -/
def isBIOLabel (l : String) : Bool :=
  match l.data with
  | c :: d :: rest =>
    (c == 'B' || c == 'I') && d == '-' && !rest.isEmpty &&
      rest.all (fun ch => !ch.isWhitespace)
  | _ => false

lemma zip_take_left (words labels : List String) :
    (words.take labels.length).zip labels = words.zip labels := by
  induction words generalizing labels with
  | nil => simp
  | cons w ws ih =>
    cases labels with
    | nil => simp
    | cons l ls => simp [ih]

lemma dget_mem (d : List (String × String)) (k v : String)
    (h : dget d k = some v) : ∃ e ∈ d, e.2 = v := by
  unfold dget at h
  cases hf : d.find? (fun e => e.1 == k) with
  | none => rw [hf] at h; cases h
  | some e =>
    rw [hf] at h
    cases h
    exact ⟨e, List.mem_of_find?_eq_some hf, rfl⟩

lemma dget_replace_synonyms (syn m : List (String × String)) (k : String) :
    dget (replace_synonyms syn m) k = (dget m k).map (resolveVal syn) := by
  induction m with
  | nil => rfl
  | cons e es ih =>
    unfold replace_synonyms at ih ⊢
    unfold dget at ih ⊢
    simp only [List.map_cons, List.find?]
    cases he : (e.1 == k) with
    | false => simpa [he] using ih
    | true => simp [he]

lemma resolveVal_of_fixed (syn : List (String × String))
    (h : ∀ e ∈ syn, dget syn (pyLower e.2) = none ∨
      dget syn (pyLower e.2) = some e.2) (v : String) :
    resolveVal syn (resolveVal syn v) = resolveVal syn v := by
  unfold resolveVal
  cases hv : dget syn (pyLower v) with
  | none => simp [hv]
  | some c =>
    obtain ⟨e, he, hec⟩ := dget_mem _ _ _ hv
    subst hec
    rcases h e he with h' | h' <;> simp [h']

/-- C1 (counterexample): with 4 predicted labels against 5 input tokens,
`predict` does not fail: it returns the non-empty EntityMap built from
only the first 4 token/label pairs (the pair `("to", "B-city")` is the
fourth), contradicting "predict fails with a LabelAlignmentError and
returns no partial EntityMap". -/
theorem c1_predict_truncation_counterexample :
    predictEntities [] ["book", "a", "flight", "to", "paris"]
        ["O", "O", "O", "B-city"] = [("city", "to")] ∧
    predictEntities [] ["book", "a", "flight", "to"]
        ["O", "O", "O", "B-city"] = [("city", "to")] ∧
    [("city", "to")] ≠ ([] : List (String × String)) := by
  decide

/-- C1 (amended): `predict` performs no length check at all: `crf2json`
consumes `zip(words, predicted_labels)`, which silently truncates to the
shorter sequence, so the result is always the EntityMap built from only
the first `min` pairs — dropping the extra words changes nothing. -/
theorem c1_predict_truncates_to_labels (synonyms : List (String × String))
    (words predicted_labels : List String) :
    predictEntities synonyms words predicted_labels =
      predictEntities synonyms (words.take predicted_labels.length)
        predicted_labels := by
  unfold predictEntities
  rw [zip_take_left]

/-- C2 (code evaluated at the failing input): for the clean in-bounds
annotation `{name := "city", begin := 17, end := 22}` covering `"paris"`
in `"book a flight to paris tomorrow"`, the BIO encoder produces no
`"B-city"`/`"I-city"` at all (the annotation is skipped via the
`AttributeError` raised by `sentence_tokenize` on a `str`), every label
stays `"O"`, and decoding the encoder's own output yields the empty map
instead of reconstructing `{"city": "paris"}`: the encode-then-decode
round-trip fails on the code. -/
theorem c2_roundtrip_fails_on_code :
    json2crf_example
        ⟨"book a flight to paris tomorrow",
         [("book", "NN"), ("a", "DT"), ("flight", "NN"), ("to", "IN"),
          ("paris", "NN"), ("tomorrow", "NN")],
         [⟨"city", 17, 22⟩]⟩ =
      [("book", "NN", "O"), ("a", "DT", "O"), ("flight", "NN", "O"),
       ("to", "IN", "O"), ("paris", "NN", "O"), ("tomorrow", "NN", "O")] ∧
    crf2json (List.zip ["book", "a", "flight", "to", "paris", "tomorrow"]
        ((json2crf_example
          ⟨"book a flight to paris tomorrow",
           [("book", "NN"), ("a", "DT"), ("flight", "NN"), ("to", "IN"),
            ("paris", "NN"), ("tomorrow", "NN")],
           [⟨"city", 17, 22⟩]⟩).map (fun lt => lt.2.2))) = [] := by
  decide

/-- C3 (code evaluated at the failing input): for
`{name := "city", begin := 7, end := 10}` covering `"nyc"` in
`"fly to nyc now"`, the claim's arithmetic gives prefix
`text[0:6] = "fly to"`, `prefix_token_count = 2`, so `"B-city"` at token
index 2 — but the code never space-splits the prefix: `sentence_tokenize`
raises `AttributeError` on the non-empty prefix string and the bare
`except` skips the annotation, so token index 2 keeps label `"O"`. -/
theorem c3_span_aligner_crashes_on_code :
    json2crf_example
        ⟨"fly to nyc now",
         [("fly", "VB"), ("to", "IN"), ("nyc", "NN"), ("now", "RB")],
         [⟨"city", 7, 10⟩]⟩ =
      [("fly", "VB", "O"), ("to", "IN", "O"), ("nyc", "NN", "O"),
       ("now", "RB", "O")] ∧
    (json2crf_example
        ⟨"fly to nyc now",
         [("fly", "VB"), ("to", "IN"), ("nyc", "NN"), ("now", "RB")],
         [⟨"city", 7, 10⟩]⟩).get? 2 ≠ some ("nyc", "NN", "B-city") := by
  decide

/-- C4 (counterexample): the synonym resolver is not idempotent without a
precondition on the table: with table `{"a": "b", "b": "c"}` and map
`{"x": "a"}`, one application gives `{"x": "b"}` and a second gives
`{"x": "c"}`. -/
theorem c4_resolver_not_idempotent_counterexample :
    replace_synonyms [("a", "b"), ("b", "c")]
        (replace_synonyms [("a", "b"), ("b", "c")] [("x", "a")]) ≠
      replace_synonyms [("a", "b"), ("b", "c")] [("x", "a")] := by
  decide

/-- C4 (amended): the synonym resolver is idempotent provided every
canonical form of the table is a fixed point of resolution: for each
table entry, looking up the lower-cased canonical form either misses or
returns that same canonical form. -/
theorem c4_resolver_idempotent_of_canonical_fixed
    (synonyms m : List (String × String))
    (h : ∀ e ∈ synonyms, dget synonyms (pyLower e.2) = none ∨
      dget synonyms (pyLower e.2) = some e.2) :
    replace_synonyms synonyms (replace_synonyms synonyms m) =
      replace_synonyms synonyms m := by
  unfold replace_synonyms
  rw [List.map_map]
  apply List.map_congr_left
  intro e _
  simp [Function.comp, resolveVal_of_fixed synonyms h]

/-- C4 (witness): the amended idempotence applies to the spec's own
example table `{"nyc": "New York City"}`, whose canonical form resolves
to nothing. -/
theorem c4_resolver_idempotent_witness :
    replace_synonyms [("nyc", "New York City")]
        (replace_synonyms [("nyc", "New York City")] [("city", "NYC")]) =
      replace_synonyms [("nyc", "New York City")] [("city", "NYC")] :=
  c4_resolver_idempotent_of_canonical_fixed _ _ (by decide)

/-- C5: the label at token index 0 of the BIO encoder's output is always
`"O"`: the space-split of the (necessarily empty, else `AttributeError`)
prefix slice is the one-element list `[""]`, so the smallest token index
the encoder ever writes is `1`. -/
theorem c5_first_token_never_labeled (ex : Example_) (lt : LTok)
    (h : (json2crf_example ex).get? 0 = some lt) : lt.2.2 = "O" := by
  unfold json2crf_example at h
  rw [get?_zero_foldl_applyEntity] at h
  unfold pos_tag_and_label at h
  rw [List.get?_map] at h
  cases hd : ex.doc.get? 0 with
  | none => rw [hd] at h; cases h
  | some tp =>
    rw [hd] at h
    cases h
    rfl

/-- C5 (witness): a training example whose annotation does label a token
(the degenerate span `begin = 1, end = 0` labels token index 1) still
leaves token index 0 labeled `"O"`. -/
theorem c5_first_token_never_labeled_witness :
    (json2crf_example
        ⟨"hi there", [("hi", "UH"), ("there", "RB")], [⟨"city", 1, 0⟩]⟩).get? 0 =
      some ("hi", "UH", "O") ∧
    ("hi", "UH", "O").2.2 = "O" :=
  ⟨by decide,
   c5_first_token_never_labeled
     ⟨"hi there", [("hi", "UH"), ("there", "RB")], [⟨"city", 1, 0⟩]⟩
     ("hi", "UH", "O") (by decide)⟩

/-- C6 (counterexample): an annotation whose entity name contains a space
produces the label `"B-x y"`, which is neither `"O"` nor a match of
`^(B|I)-\S+$` (the space violates `\S+`), refuting the claim's label-shape
regex for arbitrary annotation lists. -/
theorem c6_label_regex_counterexample :
    json2crf_example ⟨"ab", [("a", "DT"), ("b", "NN")], [⟨"x y", 1, 0⟩]⟩ =
      [("a", "DT", "O"), ("b", "NN", "B-x y")] ∧
    isBIOLabel "B-x y" = false ∧ "B-x y" ≠ "O" := by
  decide

/-- C6 (amended): for every training example — any annotation list
included — the BIO encoder's output has exactly the length and token/POS
order of the input token sequence, and every label is `"O"` or
`"B-<name>"`/`"I-<name>"` for the name of one of the supplied
annotations (the `^(B|I)-\S+$` regex holds only when names are non-empty
and whitespace-free). -/
theorem c6_length_order_label_shape (ex : Example_) :
    (json2crf_example ex).length = ex.doc.length ∧
    (∀ j : Nat, ((json2crf_example ex).get? j).map (fun lt => (lt.1, lt.2.1)) =
      ex.doc.get? j) ∧
    (∀ lt ∈ json2crf_example ex, lt.2.2 = "O" ∨
      ∃ ent ∈ ex.entities,
        lt.2.2 = "B-" ++ ent.name ∨ lt.2.2 = "I-" ++ ent.name) := by
  refine ⟨?_, ?_, ?_⟩
  · unfold json2crf_example
    rw [length_foldl_applyEntity]
    exact List.length_map ..
  · intro j
    unfold json2crf_example
    rw [proj_get?_foldl_applyEntity]
    unfold pos_tag_and_label
    rw [List.get?_map]
    cases ex.doc.get? j <;> rfl
  · intro lt hlt
    unfold json2crf_example at hlt
    rcases label_mem_foldl_applyEntity _ _ _ _ hlt with h | ⟨ent, hent, hl⟩
    · left
      unfold pos_tag_and_label at h
      obtain ⟨tp, _, rfl⟩ := List.mem_map.mp h
      rfl
    · exact Or.inr ⟨ent, hent, Or.inl hl⟩

/-- C6 (witness): the amended shape claim at a concrete labeled output. -/
theorem c6_length_order_label_shape_witness :
    ("b", "NN", "B-x").2.2 = "O" ∨
    ∃ ent ∈ [Entity.mk "x" 1 0],
      ("b", "NN", "B-x").2.2 = "B-" ++ ent.name ∨
      ("b", "NN", "B-x").2.2 = "I-" ++ ent.name :=
  (c6_length_order_label_shape
    ⟨"ab", [("a", "DT"), ("b", "NN")], [⟨"x", 1, 0⟩]⟩).2.2
    ("b", "NN", "B-x") (by decide)

/-- C7: a failed annotation resolution (`spanResolves = false`, i.e. the
`try` block raises) leaves the sentence's labels untouched — only that
single annotation is skipped and the fold proceeds to the next — and a
sentence all of whose annotations fail yields the fully-`"O"` record
`pos_tag_and_label`; no error ever escapes `json2crf`. -/
theorem c7_failed_annotations_skipped :
    (∀ (text : String) (tagged : List LTok) (ent : Entity),
      spanResolves text ent tagged.length = false →
        applyEntity text tagged ent = tagged) ∧
    (∀ ex : Example_,
      (∀ ent ∈ ex.entities, spanResolves ex.text ent ex.doc.length = false) →
        json2crf_example ex = pos_tag_and_label ex.doc) := by
  constructor
  · intro text tagged ent h
    rw [applyEntity_eq, h]
    rfl
  · intro ex h
    unfold json2crf_example
    have aux : ∀ (ents : List Entity) (tagged : List LTok),
        (∀ ent ∈ ents, spanResolves ex.text ent tagged.length = false) →
        ents.foldl (applyEntity ex.text) tagged = tagged := by
      intro ents
      induction ents with
      | nil => intro tagged _; rfl
      | cons e es ih =>
        intro tagged hall
        rw [List.foldl_cons]
        have he : applyEntity ex.text tagged e = tagged := by
          rw [applyEntity_eq, hall e (List.mem_cons_self e es)]
          rfl
        rw [he]
        exact ih tagged (fun ent hent => hall ent (List.mem_cons_of_mem e hent))
    apply aux
    intro ent hent
    have : (pos_tag_and_label ex.doc).length = ex.doc.length :=
      List.length_map ..
    rw [this]
    exact h ent hent

/-- C7 (witness): a single failing annotation is skipped, and a sentence
whose only annotation fails comes out fully `"O"`-labeled. -/
theorem c7_failed_annotations_skipped_witness :
    applyEntity "abc" [("abc", "NN", "O")] ⟨"x", 2, 3⟩ = [("abc", "NN", "O")] ∧
    json2crf_example ⟨"a b", [("a", "DT"), ("b", "NN")], [⟨"e", 3, 3⟩]⟩ =
      pos_tag_and_label [("a", "DT"), ("b", "NN")] :=
  ⟨c7_failed_annotations_skipped.1 "abc" [("abc", "NN", "O")] ⟨"x", 2, 3⟩
     (by decide),
   c7_failed_annotations_skipped.2
     ⟨"a b", [("a", "DT"), ("b", "NN")], [⟨"e", 3, 3⟩]⟩ (by decide)⟩

/-- C8: on every label sequence of the claimed forms (`"O"`, `"B-..."`,
`"I-..."`), `crf2json` computes exactly the single-pass accumulator
decoder the spec describes: `"B-"` overwrites `accumulator[name]` and
marks `name` seen, `"I-"` appends `" " + token` only when `name` was
seen (contributing nothing otherwise), `"O"` is a no-op. -/
theorem c8_decoder_single_pass (pairs : List (String × String))
    (h : ∀ p ∈ pairs, p.2 = "O" ∨ pyStartsWith p.2 "B-" = true ∨
      pyStartsWith p.2 "I-" = true) :
    crf2json pairs = specDecoder pairs := by
  unfold crf2json specDecoder
  rw [foldl_crf2jsonStep_eq_spec pairs h]

/-- C8 (witness): the decoder equivalence on a sequence exercising all
four behaviours, including an `"I-"` with no preceding `"B-"`. -/
theorem c8_decoder_single_pass_witness :
    crf2json [("new", "B-city"), ("york", "I-city"), ("a", "O"),
        ("z", "I-loc")] =
      specDecoder [("new", "B-city"), ("york", "I-city"), ("a", "O"),
        ("z", "I-loc")] :=
  c8_decoder_single_pass _ (by decide)

/-- C9: the first token's feature set contains the literal `"BOS"`, the
last token's contains `"EOS"`, and a one-token sentence gets both. -/
theorem c9_bos_eos_markers (sent : List (String × String))
    (_hne : sent ≠ []) :
    "BOS" ∈ extract_features sent 0 ∧
    "EOS" ∈ extract_features sent (sent.length - 1) ∧
    (sent.length = 1 →
      "BOS" ∈ extract_features sent 0 ∧ "EOS" ∈ extract_features sent 0) := by
  refine ⟨?_, ?_, ?_⟩
  · unfold extract_features
    by_cases hc : 0 < sent.length - 1 <;> simp [hc]
  · unfold extract_features
    have hlt : ¬ (sent.length - 1 < sent.length - 1) := Nat.lt_irrefl _
    by_cases hz : sent.length - 1 > 0 <;> simp [hz, hlt]
  · intro h1
    constructor
    · unfold extract_features
      by_cases hc : 0 < sent.length - 1 <;> simp [hc]
    · unfold extract_features
      rw [h1]
      simp

/-- C9 (witness): both boundary markers on a one-token sentence. -/
theorem c9_bos_eos_markers_witness :
    "BOS" ∈ extract_features [("Book", "VB")] 0 ∧
    "EOS" ∈ extract_features [("Book", "VB")] ([("Book", "VB")].length - 1) ∧
    ([("Book", "VB")].length = 1 →
      "BOS" ∈ extract_features [("Book", "VB")] 0 ∧
      "EOS" ∈ extract_features [("Book", "VB")] 0) :=
  c9_bos_eos_markers [("Book", "VB")] (by decide)

/-- C10: `replace_synonyms` replaces an entity's value by the table's
canonical form exactly when the lower-cased value is a key of the table
and leaves it unchanged otherwise; both `"nyc"` and `"NYC"` resolve to
`"New York City"` under the table `{"nyc": "New York City"}`. -/
theorem c10_synonym_lookup :
    (∀ (synonyms m : List (String × String)) (k v : String),
      dget m k = some v →
        (dget synonyms (pyLower v) = none →
          dget (replace_synonyms synonyms m) k = some v) ∧
        (∀ c, dget synonyms (pyLower v) = some c →
          dget (replace_synonyms synonyms m) k = some c)) ∧
    replace_synonyms [("nyc", "New York City")] [("city", "nyc")] =
      [("city", "New York City")] ∧
    replace_synonyms [("nyc", "New York City")] [("city", "NYC")] =
      [("city", "New York City")] := by
  refine ⟨?_, by decide, by decide⟩
  intro synonyms m k v hm
  constructor
  · intro hnone
    rw [dget_replace_synonyms, hm]
    simp [resolveVal, hnone]
  · intro c hc
    rw [dget_replace_synonyms, hm]
    simp [resolveVal, hc]

/-- C10 (witness): the case-insensitive lookup at the spec's example. -/
theorem c10_synonym_lookup_witness :
    dget (replace_synonyms [("nyc", "New York City")] [("city", "NYC")])
      "city" = some "New York City" :=
  (c10_synonym_lookup.1 [("nyc", "New York City")] [("city", "NYC")]
    "city" "NYC" (by decide)).2 "New York City" (by decide)

end TalkWeave

